import Mathlib

/-!
Verification of the covalent two-tier settlement stack (token layer and
channel layer) against its specification.

Shallow embedding conventions:
* `U256`/`U64`/`u128`/`u64` quantities are modelled as `Nat`: the
  `primitive_types`/`ethereum_types` arithmetic used by the source panics on
  overflow rather than wrapping, so `Nat` arithmetic agrees with every
  non-panicking execution.
* Byte strings (addresses, public keys, signatures) are `List Nat`; 32-byte
  hashes and identifiers are `Nat`.  Cryptographic primitives (blake3/keccak
  digests, secp256k1 recovery) are uninterpreted function parameters.
* Rust `HashMap`/`BTreeMap`/`DashMap` contents are association lists with an
  insert that replaces an existing binding in place, so every definition is
  executable.
* Patricia-trie and sparse-merkle-tree state roots are represented by the
  committed contents they address (the tries are content-addressed, so the
  root is determined by, and determines, the contents).  The all-zero root
  corresponds to the empty map.
-/

namespace Covalent

/-- Lookup in an association list keyed by `Nat`. -/
def afind {α : Type} (m : List (Nat × α)) (k : Nat) : Option α :=
  match m with
  | [] => none
  | (k', v) :: rest => if k' = k then some v else afind rest k

/-- Insert into an association list keyed by `Nat`: replaces an existing
binding in place, otherwise appends. -/
def ainsert {α : Type} (m : List (Nat × α)) (k : Nat) (v : α) : List (Nat × α) :=
  match m with
  | [] => [(k, v)]
  | (k', v') :: rest => if k' = k then (k, v) :: rest else (k', v') :: ainsert rest k v

/-! ## Token layer data model (layer2/src/types.rs) -/

/-- Model of `TokenBalance` (layer2/src/types.rs): per-account, per-token balance. -/
structure TokenBalance where
  locked : Nat
  active : Nat
deriving Repr, DecidableEq, Inhabited

/-- Model of `TokenBalance::is_uninitialized`: both fields zero. -/
def TokenBalance.is_uninitialized (b : TokenBalance) : Bool :=
  b.locked == 0 && b.active == 0

/-- Model of `TokenAction` (the source variant used by the executor and mempool,
which carries `Transfer`). -/
inductive TokenAction where
  | Mint
  | Lock
  | Unlock
  | Divert
  | Transfer
deriving Repr, DecidableEq, Inhabited

/-- Model of `TransactionRequest` (with the optional `to` used by the `Transfer`
action; `to` is a reserved word in Lean, so the field is named `to_addr`). -/
structure TransactionRequest where
  address : Nat
  token_id : Nat
  amount : Nat
  action : TokenAction
  to_addr : Option Nat
deriving Repr, DecidableEq, Inhabited

/-- Model of `RawTransaction` (layer2/src/types.rs). -/
structure RawTransaction where
  chain_id : Nat
  cycles_price : Nat
  cycles_limit : Nat
  nonce : Nat
  requests : List TransactionRequest
  timeout : Nat
  sender : Nat
deriving Repr, DecidableEq, Inhabited

/-- Model of `SignedTransaction` (layer2/src/types.rs). -/
structure SignedTransaction where
  raw : RawTransaction
  tx_hash : Nat
  pub_key : List Nat
  signature : List Nat
deriving Repr, DecidableEq, Inhabited

/-- Model of `SignedTransaction::cycle_limit`. -/
def SignedTransaction.cycle_limit (stx : SignedTransaction) : Nat :=
  stx.raw.cycles_limit

/-- Model of `SignedTransaction::chain_id`. -/
def SignedTransaction.chain_id (stx : SignedTransaction) : Nat :=
  stx.raw.chain_id

/-- Model of `Log` (layer2/src/types.rs). -/
structure Log where
  name : String
  data : String
deriving Repr, DecidableEq, Inhabited

/-- Model of `ExecuteError` (layer2/src/types.rs). -/
structure ExecuteError where
  error_code : Nat
  error_message : String
deriving Repr, DecidableEq, Inhabited

/-- Model of `ExecuteResponse` (layer2/src/types.rs).  `ret` is the string whose rlp
encoding the source stores (`Vec::new()`, i.e. the empty string, on error). -/
structure ExecuteResponse where
  tx_hash : Nat
  ret : String
  error : Option ExecuteError
deriving Repr, DecidableEq, Inhabited

/-! ## Token executor (layer2/src/executor.rs) -/

/-- One account's balance trie contents: token_id → balance. -/
abbrev BalMap := List (Nat × TokenBalance)

/-- Cache shape `map<address, map<token_id, TokenBalance>>`, used for both
`block_exec_cache` and `tx_exec_cache`. -/
abbrev BalCache := List (Nat × BalMap)

/-- State-trie contents: address → balance-trie contents.  Stands in for the
content-addressed state root. -/
abbrev StateMap := BalCache

/-- Model of `log_cache`: tx_hash → logs. -/
abbrev LogMap := List (Nat × List Log)

/-- Lookup of an `(address, token_id)` entry in a cache. -/
def find_balance (c : BalCache) (a t : Nat) : Option TokenBalance :=
  match afind c a with
  | none => none
  | some inner => afind inner t

/-- Write an `(address, token_id)` entry in a cache. -/
def insert_balance (c : BalCache) (a t : Nat) (b : TokenBalance) : BalCache :=
  ainsert c a (ainsert ((afind c a).getD []) t b)

/-- Model of `get_account` + `get_balance` composed: read an account's token balance
from the trie rooted at the given state, defaulting to the zero balance for
missing accounts or tokens. -/
def state_get_balance (st : StateMap) (a t : Nat) : TokenBalance :=
  (find_balance st a t).getD ⟨0, 0⟩

/-- Model of `FlowDirection` (layer2/src/executor.rs). -/
inductive FlowDirection where
  | ActiveAdd
  | ActiveToLock
  | LockToActive
  | ActiveReduce
deriving Repr, DecidableEq

/-- The `derive_more::Display` strings of `FlowDirection`. -/
def FlowDirection.str : FlowDirection → String
  | .ActiveAdd => "active add"
  | .ActiveToLock => "active to lock"
  | .LockToActive => "lock to active"
  | .ActiveReduce => "active reduce"

/-- Model of `gen_log`. -/
def gen_log (flow : FlowDirection) (amount : Nat) : String :=
  flow.str ++ " " ++ toString amount

/-- Model of `gen_resp`. -/
def gen_resp (tx_hash : Nat) : String :=
  "tx " ++ toString tx_hash ++ " success"

/-- Model of `TransactionError` (layer2/src/executor.rs). -/
inductive TransactionError where
  | ActiveAmountLessThanLock
  | LockedAmountLessThanUnlock
  | ActiveAmountLessThanDivert
deriving Repr, DecidableEq

/-- The `#[repr(u32)]` discriminants of `TransactionError`. -/
def TransactionError.code : TransactionError → Nat
  | .ActiveAmountLessThanLock => 0
  | .LockedAmountLessThanUnlock => 1
  | .ActiveAmountLessThanDivert => 2

/-- The `derive_more::Display` strings of `TransactionError` (the variant
names). -/
def TransactionError.msg : TransactionError → String
  | .ActiveAmountLessThanLock => "ActiveAmountLessThanLock"
  | .LockedAmountLessThanUnlock => "LockedAmountLessThanUnlock"
  | .ActiveAmountLessThanDivert => "ActiveAmountLessThanDivert"

/-- Model of `impl From<TransactionError> for ExecuteError`. -/
def TransactionError.toExecuteError (e : TransactionError) : ExecuteError :=
  ⟨e.code, e.msg⟩

/-- The value held by the `tx_exec_cache` entry for `(a, t)` after the
lazy-seeding step at the top of the request loop: the cached value if it is
initialized, otherwise the balance read from the parent-state trie. -/
def seeded_value (parent : StateMap) (tc : BalCache) (a t : Nat) : TokenBalance :=
  let rec0 := (find_balance tc a t).getD ⟨0, 0⟩
  if rec0.is_uninitialized then state_get_balance parent a t else rec0

/-- The lazy-seeding step: `tx_exec_cache.entry(addr).or_default(token)`
followed by `if rec.is_uninitialized { *rec = record }`.  The entry is always
materialized. -/
def seed_entry (parent : StateMap) (tc : BalCache) (a t : Nat) : BalCache :=
  insert_balance tc a t (seeded_value parent tc a t)

/-- One iteration of the request loop of `Executor::inner_exec`: seed the
`(address, token_id)` entry, then apply the action.  On a precondition
failure the source calls `clear_tx_cache` and returns the error, so the
returned tx cache is empty in that case.  (`req.to.unwrap()` in the
`Transfer` arm panics on `None` in the source; that input is unreachable past
mempool admission and is modelled by address 0.) -/
def exec_request (parent : StateMap) (tx_hash : Nat) (tc : BalCache) (lc : LogMap)
    (req : TransactionRequest) : Option TransactionError × BalCache × LogMap :=
  let tc := seed_entry parent tc req.address req.token_id
  let lc := ainsert lc tx_hash ((afind lc tx_hash).getD [])
  let addr_str := toString req.address
  let push := fun (lc : LogMap) (l : Log) =>
    ainsert lc tx_hash (((afind lc tx_hash).getD []) ++ [l])
  match req.action with
  | .Mint =>
      let rec0 := (find_balance tc req.address req.token_id).getD ⟨0, 0⟩
      let tc := insert_balance tc req.address req.token_id
        ⟨rec0.locked, rec0.active + req.amount⟩
      (none, tc, push lc ⟨addr_str, gen_log .ActiveAdd req.amount⟩)
  | .Lock =>
      let rec0 := (find_balance tc req.address req.token_id).getD ⟨0, 0⟩
      if rec0.active < req.amount then
        (some .ActiveAmountLessThanLock, [], lc)
      else
        let tc := insert_balance tc req.address req.token_id
          ⟨rec0.locked + req.amount, rec0.active - req.amount⟩
        (none, tc, push lc ⟨addr_str, gen_log .ActiveToLock req.amount⟩)
  | .Unlock =>
      let rec0 := (find_balance tc req.address req.token_id).getD ⟨0, 0⟩
      if rec0.locked < req.amount then
        (some .LockedAmountLessThanUnlock, [], lc)
      else
        let tc := insert_balance tc req.address req.token_id
          ⟨rec0.locked - req.amount, rec0.active + req.amount⟩
        (none, tc, push lc ⟨addr_str, gen_log .LockToActive req.amount⟩)
  | .Divert =>
      let rec0 := (find_balance tc req.address req.token_id).getD ⟨0, 0⟩
      if rec0.active < req.amount then
        (some .ActiveAmountLessThanDivert, [], lc)
      else
        let tc := insert_balance tc req.address req.token_id
          ⟨rec0.locked, rec0.active - req.amount⟩
        (none, tc, push lc ⟨addr_str, gen_log .ActiveReduce req.amount⟩)
  | .Transfer =>
      let dest := req.to_addr.getD 0
      let tc := seed_entry parent tc dest req.token_id
      let rec0 := (find_balance tc req.address req.token_id).getD ⟨0, 0⟩
      if rec0.active < req.amount then
        (some .ActiveAmountLessThanDivert, [], lc)
      else
        let tc := insert_balance tc req.address req.token_id
          ⟨rec0.locked, rec0.active - req.amount⟩
        let to_rec := (find_balance tc dest req.token_id).getD ⟨0, 0⟩
        let tc := insert_balance tc dest req.token_id
          ⟨to_rec.locked, to_rec.active + req.amount⟩
        (none, tc, lc)

/-- The request loop of `Executor::inner_exec`. -/
def exec_requests (parent : StateMap) (tx_hash : Nat) :
    List TransactionRequest → BalCache → LogMap →
    Option TransactionError × BalCache × LogMap
  | [], tc, lc => (none, tc, lc)
  | req :: rest, tc, lc =>
      match exec_request parent tx_hash tc lc req with
      | (some e, tc', lc') => (some e, tc', lc')
      | (none, tc', lc') => exec_requests parent tx_hash rest tc' lc'

/-- One transaction of `Executor::exec`: run `inner_exec` and build the
`ExecuteResponse`.  On success every address of the tx cache is copied into
the block cache (replacing that address's entry wholesale, as
`block_exec_cache.insert(*addr, cache.clone())` does); on failure the block
cache is untouched.  Returns `(response, block_cache, tx_cache, log_cache)`. -/
def exec_tx (parent : StateMap) (bc tc : BalCache) (lc : LogMap)
    (stx : SignedTransaction) : ExecuteResponse × BalCache × BalCache × LogMap :=
  match exec_requests parent stx.tx_hash stx.raw.requests tc lc with
  | (some e, tc', lc') =>
      (⟨stx.tx_hash, "", some e.toExecuteError⟩, bc, tc', lc')
  | (none, tc', lc') =>
      let bc' := tc'.foldl (fun acc p => ainsert acc p.1 p.2) bc
      (⟨stx.tx_hash, gen_resp stx.tx_hash, none⟩, bc', tc', lc')

/-- The transaction loop of `Executor::exec`. -/
def exec_txs (parent : StateMap) :
    List SignedTransaction → BalCache → BalCache → LogMap →
    List ExecuteResponse × BalCache × BalCache × LogMap
  | [], bc, tc, lc => ([], bc, tc, lc)
  | stx :: rest, bc, tc, lc =>
      match exec_tx parent bc tc lc stx with
      | (resp, bc', tc', lc') =>
          match exec_txs parent rest bc' tc' lc' with
          | (resps, bcf, tcf, lcf) => (resp :: resps, bcf, tcf, lcf)

/-- Model of `Executor::commit_cache`: for every address of the block cache, open its
balance trie, insert every cached token balance, and write the account back
into the state trie. -/
def commit_cache (st : StateMap) (bc : BalCache) : StateMap :=
  bc.foldl
    (fun acc p =>
      let balances := (afind acc p.1).getD []
      ainsert acc p.1 (p.2.foldl (fun bt q => ainsert bt q.1 q.2) balances))
    st

/-- Model of `BlockExecuteResponse` (layer2/src/types.rs); the state root is modelled
by the committed state contents. -/
structure BlockExecuteResponse where
  state_root : StateMap
  inner : List ExecuteResponse
deriving Repr, DecidableEq

/-- Model of `Executor::exec` as invoked by the consensus loop: fresh caches, one pass
over the transactions, then a commit deriving the new state root. -/
def Executor.exec (state : StateMap) (txs : List SignedTransaction) :
    BlockExecuteResponse :=
  match exec_txs state txs [] [] [] with
  | (resps, bc, _, _) => ⟨commit_cache state bc, resps⟩

/-! ## Token mempool (layer2/src/mempool.rs) -/

/-- Model of `TX_CYCLE_LIMIT` (layer2/src/mempool.rs). -/
def TX_CYCLE_LIMIT : Nat := 100000

/-- The hashing and signature primitives the mempool uses, left
uninterpreted: `hash_raw` is `Hasher::digest_(raw.rlp_bytes())` and
`sig_verify signature tx_hash pub_key` is the composite of the secp256k1
signature/public-key parsing and `verify` over the tx hash. -/
structure MempoolOps where
  hash_raw : RawTransaction → Nat
  sig_verify : List Nat → Nat → List Nat → Bool

/-- Model of `MemPoolImpl`: the `tx_map` keyed by tx hash, plus the pool's chain id. -/
structure MemPoolImpl where
  tx_map : List (Nat × SignedTransaction)
  chain_id : Nat
deriving Repr, DecidableEq

/-- Model of `MemPoolImpl::verify_tx`: the admission checks in source order, with the
source's error strings (the three signature-path failures are collapsed into
the uninterpreted `sig_verify`). -/
def verify_tx (ops : MempoolOps) (pool : MemPoolImpl) (stx : SignedTransaction) :
    Option String :=
  if stx.chain_id ≠ pool.chain_id then some "Invalid chain id"
  else if TX_CYCLE_LIMIT < stx.cycle_limit then some "Exceed tx cycle limit"
  else if ops.hash_raw stx.raw ≠ stx.tx_hash then some "Tx hash diff"
  else if stx.raw.requests.any
      (fun req => req.action == TokenAction.Transfer && req.to_addr.isNone) then
    some "Invalid transfer request"
  else if ops.sig_verify stx.signature stx.tx_hash stx.pub_key then none
  else some "Verify signature failed"

/-- Model of `MemPoolImpl::insert`: verify, then insert keyed by `tx_hash`.  Returns
the admission error (if any) together with the resulting pool, which is
unchanged on rejection. -/
def MemPoolImpl.insert (ops : MempoolOps) (pool : MemPoolImpl)
    (stx : SignedTransaction) : Option String × MemPoolImpl :=
  match verify_tx ops pool stx with
  | some e => (some e, pool)
  | none => (none, { pool with tx_map := ainsert pool.tx_map stx.tx_hash stx })

/-- The `take_while` loop of `MemPoolImpl::package` with its running
`sum_cycle` accumulator. -/
def package_go (total_limit : Nat) :
    List (Nat × SignedTransaction) → Nat → List SignedTransaction
  | [], _ => []
  | (_, stx) :: rest, sum_cycle =>
      if sum_cycle + stx.cycle_limit ≤ total_limit then
        stx :: package_go total_limit rest (sum_cycle + stx.cycle_limit)
      else []

/-- Model of `MemPoolImpl::package`: greedy take-while over the map's entries in
iteration order. -/
def MemPoolImpl.package (pool : MemPoolImpl) (total_limit : Nat) :
    List SignedTransaction :=
  package_go total_limit pool.tx_map 0

/-- Total cycles of a packaged list. -/
def sum_cycles (txs : List SignedTransaction) : Nat :=
  (txs.map SignedTransaction.cycle_limit).sum

/-! ## Token block producer (layer2/src/consensus.rs) -/

/-- Model of `CYCLE_LIMIT` (layer2/src/consensus.rs). -/
def CYCLE_LIMIT : Nat := 30000000

/-- Model of `Header` (layer2/src/types.rs); the state root is modelled by the state
contents it addresses. -/
structure Header where
  chain_id : Nat
  number : Nat
  prev_hash : Nat
  timestamp : Nat
  transaction_root : Nat
  state_root : StateMap
  cycles_limit : Nat
  proposer : Nat
deriving Repr, DecidableEq

/-- Model of `Block` (layer2/src/types.rs). -/
structure Block where
  header : Header
  txs : List SignedTransaction
deriving Repr, DecidableEq

/-- Model of `State` (layer2/src/consensus.rs): the producer's rolling tip state. -/
structure ConsensusState where
  next_number : Nat
  prev_hash : Nat
  state_root : StateMap
deriving Repr, DecidableEq

/-- The consensus configuration plus its uninterpreted hash functions:
`header_hash` is `Block::header_hash` and `merkle_root` is
`Merkle::from_hashes(..).get_root_hash().unwrap_or_default()`. -/
structure ConsensusCfg where
  chain_id : Nat
  address : Nat
  header_hash : Header → Nat
  merkle_root : List Nat → Nat

/-- Model of `Consensus::build_block`. -/
def build_block (cfg : ConsensusCfg) (st : ConsensusState) (now : Nat)
    (txs : List SignedTransaction) : Block :=
  { header :=
      { chain_id := cfg.chain_id
        number := st.next_number
        prev_hash := st.prev_hash
        timestamp := now
        transaction_root := cfg.merkle_root (txs.map SignedTransaction.tx_hash)
        state_root := st.state_root
        cycles_limit := CYCLE_LIMIT
        proposer := cfg.address }
    txs := txs }

/-- One tick of `Consensus::run`: build the block, execute its transactions
on the block's recorded state root with a fresh executor, save the block, and
advance the rolling state. -/
def consensus_step (cfg : ConsensusCfg) (st : ConsensusState) (now : Nat)
    (txs : List SignedTransaction) : Block × ConsensusState :=
  let block := build_block cfg st now txs
  let resp := Executor.exec block.header.state_root block.txs
  (block,
    { next_number := block.header.number + 1
      prev_hash := cfg.header_hash block.header
      state_root := resp.state_root })

/-! ## Channel layer data model (layer3/src/types.rs) -/

/-- Model of `Token` (layer3/src/types.rs). -/
structure Token3 where
  id : Nat
  symbol : List Nat
  decimal : Nat
deriving Repr, DecidableEq, Inhabited

/-- Model of `Balance` (layer3/src/types.rs). -/
structure Balance3 where
  settled : Nat
deriving Repr, DecidableEq, Inhabited

/-- Model of `ChannelState`; `NonExists` is the `#[default]` variant. -/
inductive ChannelState where
  | NonExists
  | Open
  | Challenge
  | Closed
deriving Repr, DecidableEq, Inhabited

/-- Model of `Channel` (layer3/src/types.rs); addresses are 20-byte strings. -/
structure Channel where
  id : Nat
  token : Token3
  participant2 : List Nat × List Nat
  state : ChannelState
  version : Nat
  total_balance : Nat
  balance2 : Balance3 × Balance3
deriving Repr, DecidableEq, Inhabited

/-- Model of `Value::zero` for `Channel`: the all-default value stored for missing SMT
keys. -/
def Channel.zero : Channel :=
  ⟨0, ⟨0, [], 0⟩, ([], []), .NonExists, 0, 0, (⟨0⟩, ⟨0⟩)⟩

/-- Model of `Channel::exists`: `state != ChannelState::NonExists`. -/
def Channel.existsb (c : Channel) : Bool :=
  c.state != ChannelState.NonExists

/-- Model of `CreateChannel` args. -/
structure CreateChannel where
  id : Nat
  token : Token3
  participant2 : List Nat × List Nat
  balance2 : Balance3 × Balance3
deriving Repr, DecidableEq, Inhabited

/-- Model of `UpdateChannel` args. -/
structure UpdateChannel where
  channel_id : Nat
  version : Nat
  balance2 : Balance3 × Balance3
  signature2 : List Nat × List Nat
deriving Repr, DecidableEq, Inhabited

/-- Model of `CloseChannel` args. -/
structure CloseChannel where
  channel_id : Nat
  version : Nat
  signature2 : List Nat × List Nat
deriving Repr, DecidableEq, Inhabited

/-- Model of `RawTransaction` (layer3/src/types.rs): the channel transaction union. -/
inductive RawTx3 where
  | CreateChannel (args : CreateChannel)
  | UpdateChannel (args : UpdateChannel)
  | CloseChannel (args : CloseChannel)
deriving Repr, DecidableEq, Inhabited

/-- Model of `SignedTransaction` (layer3/src/types.rs); `from` is reserved in Lean, so
the field is `from_addr`. -/
structure SignedTx3 where
  raw : RawTx3
  sig : List Nat
  from_addr : List Nat
  hash : Nat
deriving Repr, DecidableEq, Inhabited

/-- Model of `ExecutionExitCode` (layer3/src/types.rs). -/
inductive ExecutionExitCode where
  | Success
  | ErrorChannelExists
  | ErrorChannelNotFound
  | ErrorRollbackChannelVersion
  | ErrorUpdateChannelSignature
deriving Repr, DecidableEq, Inhabited

/-- The `#[repr(u8)]` discriminants of `ExecutionExitCode`. -/
def ExecutionExitCode.code : ExecutionExitCode → Nat
  | .Success => 0
  | .ErrorChannelExists => 1
  | .ErrorChannelNotFound => 2
  | .ErrorRollbackChannelVersion => 3
  | .ErrorUpdateChannelSignature => 4

/-- SMT contents: channel key (`id.to_h256`, injective on ids) → `Channel`.
Stands in for the content-addressed SMT root; the zero root corresponds to
the empty map. -/
abbrev SmtMap := List (Nat × Channel)

/-- Model of `SMT::get`: the zero channel for missing keys. -/
def smt_get (m : SmtMap) (k : Nat) : Channel :=
  (afind m k).getD Channel.zero

/-- Model of `SMT::update`. -/
def smt_update (m : SmtMap) (k : Nat) (v : Channel) : SmtMap :=
  ainsert m k v

/-- Model of `TransactionReceipt` (layer3/src/types.rs); `state_root` is modelled by
the SMT contents, `err_res` writing `H256::zero`, i.e. the empty map. -/
structure TransactionReceipt3 where
  exit_code : ExecutionExitCode
  state_root : SmtMap
deriving Repr, DecidableEq, Inhabited

/-- Model of `TransactionReceipt::success`. -/
def TransactionReceipt3.success (root : SmtMap) : TransactionReceipt3 :=
  ⟨.Success, root⟩

/-- Model of `TransactionReceipt::err_res`. -/
def TransactionReceipt3.err_res (code : ExecutionExitCode) : TransactionReceipt3 :=
  ⟨code, []⟩

/-! ## Channel executor (layer3/src/executor.rs) -/

/-- The uninterpreted cryptographic primitives of the channel executor:
`recover msg sig64 rec_id` is
`secp.recover_ecdsa(msg, RecoverableSignature::from_compact(sig64, rec_id))`
returning the 65-byte uncompressed public-key serialization (or `none` when
parsing or recovery fails); `keccak` is the 32-byte Keccak-256 digest;
`sig_msg_update`/`sig_msg_close` are `UpdateChannel::sig_msg`/
`CloseChannel::sig_msg`, functions of the signature-zeroed args alone. -/
structure CryptoOps where
  recover : Nat → List Nat → Nat → Option (List Nat)
  keccak : List Nat → List Nat
  sig_msg_update : Nat → Nat → Balance3 × Balance3 → Nat
  sig_msg_close : Nat → Nat → Nat

/-- Model of `extract_rec_id`: maps 27/28 to 0/1 and passes other bytes through to
`RecoveryId::from_i32`, which accepts exactly 0..=3. -/
def extract_rec_id (rec_id : Nat) : Option Nat :=
  let param := if rec_id = 27 then 0 else if rec_id = 28 then 1 else rec_id
  if param ≤ 3 then some param else none

/-- The address recovered from one 65-byte signature: recovery byte mapping,
public-key recovery, then the last 20 bytes of Keccak-256 over the 64-byte
uncompressed key without its leading tag byte. -/
def recovered_addr (ops : CryptoOps) (msg : Nat) (sig : List Nat) :
    Option (List Nat) :=
  if sig.length = 65 then
    match extract_rec_id (sig.getD 64 0) with
    | none => none
    | some rid =>
        match ops.recover msg (sig.take 64) rid with
        | none => none
        | some pk => some ((ops.keccak (pk.drop 1)).drop 12)
  else none

/-- One iteration of the `verify_signature2` loop: the recovered address must
equal one of the two authorized addresses. -/
def check_sig (ops : CryptoOps) (msg : Nat) (participant2 : List Nat × List Nat)
    (sig : List Nat) : Bool :=
  match recovered_addr ops msg sig with
  | none => false
  | some a => a == participant2.1 || a == participant2.2

/-- Model of `verify_signature2`: both signatures must verify; distinctness of the two
signers is not checked. -/
def verify_signature2 (ops : CryptoOps) (msg : Nat)
    (participant2 : List Nat × List Nat) (sig2 : List Nat × List Nat) : Bool :=
  check_sig ops msg participant2 sig2.1 && check_sig ops msg participant2 sig2.2

/-- Model of `create_channel` (layer3/src/executor.rs). -/
def create_channel (smt : SmtMap) (args : CreateChannel) :
    TransactionReceipt3 × SmtMap :=
  if (smt_get smt args.id).existsb then
    (.err_res .ErrorChannelExists, smt)
  else
    let total_balance := 0 + args.balance2.1.settled + args.balance2.2.settled
    let channel : Channel :=
      ⟨args.id, args.token, args.participant2, .Open, 0, total_balance,
        args.balance2⟩
    let smt' := smt_update smt args.id channel
    (.success smt', smt')

/-- Model of `update_channel` (layer3/src/executor.rs). -/
def update_channel (ops : CryptoOps) (smt : SmtMap) (args : UpdateChannel) :
    TransactionReceipt3 × SmtMap :=
  let channel := smt_get smt args.channel_id
  if !channel.existsb then
    (.err_res .ErrorChannelNotFound, smt)
  else if args.version ≤ channel.version then
    (.err_res .ErrorRollbackChannelVersion, smt)
  else
    let sig_msg := ops.sig_msg_update args.channel_id args.version args.balance2
    if !verify_signature2 ops sig_msg channel.participant2 args.signature2 then
      (.err_res .ErrorUpdateChannelSignature, smt)
    else
      let updated := { channel with version := args.version, balance2 := args.balance2 }
      let smt' := smt_update smt channel.id updated
      (.success smt', smt')

/-- Model of `close_channel` (layer3/src/executor.rs).  Note: the source writes only
`version` back; it does not transition `state`. -/
def close_channel (ops : CryptoOps) (smt : SmtMap) (args : CloseChannel) :
    TransactionReceipt3 × SmtMap :=
  let channel := smt_get smt args.channel_id
  if !channel.existsb then
    (.err_res .ErrorChannelNotFound, smt)
  else if args.version ≤ channel.version then
    (.err_res .ErrorRollbackChannelVersion, smt)
  else
    let sig_msg := ops.sig_msg_close args.channel_id args.version
    if !verify_signature2 ops sig_msg channel.participant2 args.signature2 then
      (.err_res .ErrorUpdateChannelSignature, smt)
    else
      let closed := { channel with version := args.version }
      let smt' := smt_update smt channel.id closed
      (.success smt', smt')

/-- The transaction loop of `ChannelExecutor::exec`. -/
def exec_channel_txs (ops : CryptoOps) :
    List RawTx3 → SmtMap → List TransactionReceipt3 × SmtMap
  | [], smt => ([], smt)
  | tx :: rest, smt =>
      let r :=
        match tx with
        | .CreateChannel args => create_channel smt args
        | .UpdateChannel args => update_channel ops smt args
        | .CloseChannel args => close_channel ops smt args
      match exec_channel_txs ops rest r.2 with
      | (receipts, smt') => (r.1 :: receipts, smt')

/-- Model of `ExecutionReceipt` (layer3/src/executor.rs); `receipt_root` comes from
the uninterpreted CBMT merkle root. -/
structure ExecutionReceipt where
  state_root : SmtMap
  receipt_root : Nat
  transaction_receipts : List TransactionReceipt3
deriving Repr, DecidableEq

/-- Model of `ChannelExecutor::exec`: run the transactions over the SMT opened at the
current store contents, then report the final root, the CBMT receipt root and
the per-transaction receipts. -/
def ChannelExecutor.exec (ops : CryptoOps)
    (cbmt_receipts : List TransactionReceipt3 → Nat) (store : SmtMap)
    (txs : List RawTx3) : ExecutionReceipt :=
  match exec_channel_txs ops txs store with
  | (receipts, smt') => ⟨smt', cbmt_receipts receipts, receipts⟩

/-! ## Channel block producer (layer3/src/consensus.rs) -/

/-- Model of `BlockHeader` (layer3/src/types.rs). -/
structure BlockHeader3 where
  number : Nat
  parent_hash : Nat
  timestamp : Nat
  state_root : SmtMap
  transaction_root : Nat
  receipt_root : Nat
deriving Repr, DecidableEq

/-- Model of `Block` (layer3/src/types.rs). -/
structure Block3 where
  header : BlockHeader3
  txs : List SignedTx3
deriving Repr, DecidableEq

/-- Model of `ConsensusReceipt` (layer3/src/consensus.rs). -/
structure ConsensusReceipt3 where
  block : Block3
  transaction_receipts : List TransactionReceipt3
deriving Repr, DecidableEq

/-- The uninterpreted hash functions of the channel chain: `block_hash` is
`Block::block_hash`, `cbmt_root_hashes`/`cbmt_root_receipts` are
`cbmt_merkle_root` over tx hashes and serialized receipts, `raw_hash` is
`RawTransaction::hash`. -/
structure ChainOps where
  block_hash : BlockHeader3 → Nat
  cbmt_root_hashes : List Nat → Nat
  cbmt_root_receipts : List TransactionReceipt3 → Nat
  raw_hash : RawTx3 → Nat

/-- Model of `ChannelConsensus::produce_block`: execute the packaged transactions,
then assemble the next block on top of the tip. -/
def produce_block (ops : CryptoOps) (chops : ChainOps) (store : SmtMap)
    (tip : BlockHeader3) (txs : List SignedTx3) (now : Nat) : ConsensusReceipt3 :=
  let exec_receipt :=
    ChannelExecutor.exec ops chops.cbmt_root_receipts store (txs.map SignedTx3.raw)
  let transaction_root :=
    chops.cbmt_root_hashes (txs.map (fun t => chops.raw_hash t.raw))
  let header : BlockHeader3 :=
    { number := tip.number + 1
      parent_hash := chops.block_hash tip
      timestamp := now
      state_root := exec_receipt.state_root
      transaction_root := transaction_root
      receipt_root := exec_receipt.receipt_root }
  ⟨⟨header, txs⟩, exec_receipt.transaction_receipts⟩

/-! ## Concrete fixtures used by witnesses and counterexamples -/

/-- A consensus configuration with trivial hash functions (the state-root
claims do not depend on them). -/
def cfg0 : ConsensusCfg := ⟨1, 9, fun _ => 0, fun _ => 0⟩

/-- The boot state of `Consensus::new`: next number 1, zero previous hash,
zero (empty) state root. -/
def st0 : ConsensusState := ⟨1, 0, []⟩

/-- A transaction minting 100 of token 7 to address 5. -/
def stx_mint100 : SignedTransaction :=
  ⟨⟨1, 0, 10, 1, [⟨5, 7, 100, .Mint, none⟩], 0, 5⟩, 21, [], []⟩

/-- A transaction locking 200 of token 7 at address 5 (an underflow after
`stx_mint100`). -/
def stx_lock200 : SignedTransaction :=
  ⟨⟨1, 0, 10, 2, [⟨5, 7, 200, .Lock, none⟩], 0, 5⟩, 22, [], []⟩

/-- A transaction minting 1 of token 7 to address 5. -/
def stx_mint1 : SignedTransaction :=
  ⟨⟨1, 0, 10, 3, [⟨5, 7, 1, .Mint, none⟩], 0, 5⟩, 23, [], []⟩

/-- A transfer of 100 of token 7 from address 5 to address 6, which underflows
on an empty parent state. -/
def stx_transfer100 : SignedTransaction :=
  ⟨⟨1, 0, 10, 4, [⟨5, 7, 100, .Transfer, some 6⟩], 0, 5⟩, 24, [], []⟩

/-- Address (20 bytes) of the first channel participant. -/
def addrA : List Nat := List.replicate 20 1

/-- Address (20 bytes) of the second channel participant. -/
def addrB : List Nat := List.replicate 20 2

/-- A 65-byte signature whose recovery byte is 27. -/
def sig65 : List Nat := List.replicate 64 0 ++ [27]

/-- Concrete crypto primitives under which every signature recovers to
`addrA`: recovery returns a fixed 65-byte key and keccak a fixed 32-byte
digest whose last 20 bytes are `addrA`. -/
def ops0 : CryptoOps :=
  { recover := fun _ _ _ => some (List.replicate 65 4)
    keccak := fun _ => List.replicate 12 0 ++ addrA
    sig_msg_update := fun _ _ _ => 0
    sig_msg_close := fun _ _ => 0 }

/-- The S4 channel after the accepted update: open, version 1, balances
(50, 50). -/
def chan2077 : Channel :=
  ⟨2077, ⟨1, [], 18⟩, (addrA, addrB), .Open, 1, 100, (⟨50⟩, ⟨50⟩)⟩

/-- The S4 close: version 2, both signature slots filled. -/
def close_args : CloseChannel := ⟨2077, 2, (sig65, sig65)⟩

/-- A transaction with cycle limit 10 (S3 scenario). -/
def tx10a : SignedTransaction := ⟨⟨1, 0, 10, 5, [], 0, 5⟩, 31, [], []⟩

/-- A transaction with cycle limit 25 (S3 scenario). -/
def tx25 : SignedTransaction := ⟨⟨1, 0, 25, 6, [], 0, 5⟩, 32, [], []⟩

/-- A second transaction with cycle limit 10 (S3 scenario). -/
def tx10b : SignedTransaction := ⟨⟨1, 0, 10, 7, [], 0, 5⟩, 33, [], []⟩

/-- The S3 pool: three transactions with cycle limits 10, 25, 10. -/
def pool3 : MemPoolImpl := ⟨[(31, tx10a), (32, tx25), (33, tx10b)], 1⟩

/-- Mempool primitives for witnesses: a constant hash and an
always-accepting signature check. -/
def ops1 : MempoolOps := ⟨fun _ => 999, fun _ _ _ => true⟩

/-- A transaction whose chain id (2) differs from the pool's (1). -/
def stx_badchain : SignedTransaction := ⟨⟨2, 0, 10, 8, [], 0, 5⟩, 41, [], []⟩

/-- An empty pool on chain 1. -/
def pool1 : MemPoolImpl := ⟨[], 1⟩

/-- A channel store holding only the S4 channel. -/
def smt2077 : SmtMap := [(2077, chan2077)]

/-- An update of the S4 channel to version 2 with balances (60, 40). -/
def upd_args : UpdateChannel := ⟨2077, 2, (⟨60⟩, ⟨40⟩), (sig65, sig65)⟩

/-! ## Helper lemmas -/

theorem afind_ainsert_self {α : Type} (m : List (Nat × α)) (k : Nat) (v : α) :
    afind (ainsert m k v) k = some v := by
  induction m with
  | nil => simp [ainsert, afind]
  | cons hd tl ih =>
      by_cases h : hd.1 = k
      · simp [ainsert, h, afind]
      · simp [ainsert, h, afind, ih]

theorem afind_ainsert_ne {α : Type} (m : List (Nat × α)) (k k' : Nat) (v : α)
    (h : k ≠ k') : afind (ainsert m k v) k' = afind m k' := by
  induction m with
  | nil => simp [ainsert, afind, h]
  | cons hd tl ih =>
      by_cases hk : hd.1 = k
      · simp [ainsert, hk, afind, h]
      · simp [ainsert, hk, afind, ih]

theorem find_insert_balance_self (c : BalCache) (a t : Nat) (b : TokenBalance) :
    find_balance (insert_balance c a t b) a t = some b := by
  simp [find_balance, insert_balance, afind_ainsert_self, afind_ainsert_self]

theorem exec_tx_bc_oblivious (parent : StateMap) (bc₁ bc₂ tc : BalCache)
    (lc : LogMap) (stx : SignedTransaction) :
    (exec_tx parent bc₁ tc lc stx).1 = (exec_tx parent bc₂ tc lc stx).1 ∧
    (exec_tx parent bc₁ tc lc stx).2.2 = (exec_tx parent bc₂ tc lc stx).2.2 := by
  rcases h : exec_requests parent stx.tx_hash stx.raw.requests tc lc with ⟨oe, tc', lc'⟩
  cases oe <;> simp [exec_tx, h]

theorem exec_txs_bc_oblivious (parent : StateMap) (txs : List SignedTransaction) :
    ∀ (bc₁ bc₂ tc : BalCache) (lc : LogMap),
      (exec_txs parent txs bc₁ tc lc).1 = (exec_txs parent txs bc₂ tc lc).1 ∧
      (exec_txs parent txs bc₁ tc lc).2.2 = (exec_txs parent txs bc₂ tc lc).2.2 := by
  induction txs with
  | nil => intro bc₁ bc₂ tc lc; exact ⟨rfl, rfl⟩
  | cons stx rest ih =>
      intro bc₁ bc₂ tc lc
      obtain ⟨h1, h2⟩ := exec_tx_bc_oblivious parent bc₁ bc₂ tc lc stx
      rcases e₁ : exec_tx parent bc₁ tc lc stx with ⟨r₁, b₁, t₁, l₁⟩
      rcases e₂ : exec_tx parent bc₂ tc lc stx with ⟨r₂, b₂, t₂, l₂⟩
      rw [e₁, e₂] at h1 h2
      simp only [] at h1 h2
      obtain ⟨ht, hl⟩ : t₁ = t₂ ∧ l₁ = l₂ := by
        exact ⟨congrArg Prod.fst h2, congrArg Prod.snd h2⟩
      subst h1 ht hl
      obtain ⟨ih1, ih2⟩ := ih b₁ b₂ t₁ l₁
      rcases f₁ : exec_txs parent rest b₁ t₁ l₁ with ⟨rs₁, bb₁, tt₁, ll₁⟩
      rcases f₂ : exec_txs parent rest b₂ t₁ l₁ with ⟨rs₂, bb₂, tt₂, ll₂⟩
      rw [f₁, f₂] at ih1 ih2
      simp only [] at ih1 ih2
      simp [exec_txs, e₁, e₂, f₁, f₂, ih1, ih2]

theorem exec_request_error_clears (parent : StateMap) (th : Nat) (tc : BalCache)
    (lc : LogMap) (req : TransactionRequest) (e : TransactionError)
    (h : (exec_request parent th tc lc req).1 = some e) :
    (exec_request parent th tc lc req).2.1 = [] := by
  obtain ⟨a, t, amount, act, dst⟩ := req
  cases act <;> simp [exec_request] at h ⊢ <;> split at h <;> simp_all

theorem exec_requests_error_clears (parent : StateMap) (th : Nat) :
    ∀ (reqs : List TransactionRequest) (tc : BalCache) (lc : LogMap)
      (e : TransactionError),
      (exec_requests parent th reqs tc lc).1 = some e →
      (exec_requests parent th reqs tc lc).2.1 = [] := by
  intro reqs
  induction reqs with
  | nil => intro tc lc e h; simp [exec_requests] at h
  | cons req rest ih =>
      intro tc lc e h
      rcases hr : exec_request parent th tc lc req with ⟨oe, tc', lc'⟩
      cases oe with
      | some e' =>
          have h1 : (exec_request parent th tc lc req).1 = some e' := by rw [hr]
          have h2 := exec_request_error_clears parent th tc lc req e' h1
          rw [hr] at h2
          have h3 : tc' = [] := h2
          simp [exec_requests, hr, h3]
      | none =>
          rw [exec_requests, hr] at h ⊢
          exact ih tc' lc' e h

theorem update_channel_success_version (ops : CryptoOps) (smt : SmtMap)
    (args : UpdateChannel) (r : TransactionReceipt3) (smt' : SmtMap)
    (h : update_channel ops smt args = (r, smt'))
    (hs : r.exit_code = ExecutionExitCode.Success) :
    (smt_get smt args.channel_id).version
      < (smt_get smt' (smt_get smt args.channel_id).id).version := by
  simp only [update_channel] at h
  split at h
  · injection h with h1 h2
    subst h1
    simp [TransactionReceipt3.err_res] at hs
  · split at h
    · injection h with h1 h2
      subst h1
      simp [TransactionReceipt3.err_res] at hs
    · split at h
      · injection h with h1 h2
        subst h1
        simp [TransactionReceipt3.err_res] at hs
      · injection h with h1 h2
        subst h2
        rename_i hver _
        simp only [smt_get, smt_update, afind_ainsert_self, Option.getD_some] at hver ⊢
        omega

theorem close_channel_success_version (ops : CryptoOps) (smt : SmtMap)
    (args : CloseChannel) (r : TransactionReceipt3) (smt' : SmtMap)
    (h : close_channel ops smt args = (r, smt'))
    (hs : r.exit_code = ExecutionExitCode.Success) :
    (smt_get smt args.channel_id).version
      < (smt_get smt' (smt_get smt args.channel_id).id).version := by
  simp only [close_channel] at h
  split at h
  · injection h with h1 h2
    subst h1
    simp [TransactionReceipt3.err_res] at hs
  · split at h
    · injection h with h1 h2
      subst h1
      simp [TransactionReceipt3.err_res] at hs
    · split at h
      · injection h with h1 h2
        subst h1
        simp [TransactionReceipt3.err_res] at hs
      · injection h with h1 h2
        subst h2
        rename_i hver _
        simp only [smt_get, smt_update, afind_ainsert_self, Option.getD_some] at hver ⊢
        omega

theorem find_balance_insert_other (c : BalCache) (a' t' a t : Nat)
    (v : TokenBalance) (h : a' ≠ a) :
    find_balance (insert_balance c a' t' v) a t = find_balance c a t := by
  simp [find_balance, insert_balance, afind_ainsert_ne _ _ _ _ h]

theorem find_seed_entry_self (parent : StateMap) (tc : BalCache) (a t : Nat) :
    find_balance (seed_entry parent tc a t) a t
      = some (seeded_value parent tc a t) :=
  find_insert_balance_self tc a t _

theorem seeded_value_seed_same (parent : StateMap) (tc : BalCache) (a t : Nat) :
    seeded_value parent (seed_entry parent tc a t) a t
      = seeded_value parent tc a t := by
  have hs := find_seed_entry_self parent tc a t
  unfold seeded_value at hs ⊢
  rw [hs]
  simp only [Option.getD_some]
  by_cases h : ((find_balance tc a t).getD ⟨0, 0⟩).is_uninitialized
  · simp [h]
  · simp [h]

/-! ## Claim theorems -/

/-- C3: `UpdateChannel` fails with `ErrorChannelNotFound` when the channel is
absent, with `ErrorRollbackChannelVersion` when it exists and
`args.version ≤ current.version`, and with `ErrorUpdateChannelSignature`
when `verify_signature2` rejects; on success it writes only
`version ← args.version` and `balance2 ← args.balance2`, preserving all
other fields; and the version of the stored channel strictly increases
across every successful update and close. -/
theorem update_channel_spec (ops : CryptoOps) (smt : SmtMap) (args : UpdateChannel) :
    ((smt_get smt args.channel_id).existsb = false →
      update_channel ops smt args = (⟨.ErrorChannelNotFound, []⟩, smt)) ∧
    ((smt_get smt args.channel_id).existsb = true →
      args.version ≤ (smt_get smt args.channel_id).version →
      update_channel ops smt args = (⟨.ErrorRollbackChannelVersion, []⟩, smt)) ∧
    ((smt_get smt args.channel_id).existsb = true →
      (smt_get smt args.channel_id).version < args.version →
      verify_signature2 ops (ops.sig_msg_update args.channel_id args.version args.balance2)
        (smt_get smt args.channel_id).participant2 args.signature2 = false →
      update_channel ops smt args = (⟨.ErrorUpdateChannelSignature, []⟩, smt)) ∧
    ((smt_get smt args.channel_id).existsb = true →
      (smt_get smt args.channel_id).version < args.version →
      verify_signature2 ops (ops.sig_msg_update args.channel_id args.version args.balance2)
        (smt_get smt args.channel_id).participant2 args.signature2 = true →
      update_channel ops smt args =
        (TransactionReceipt3.success
            (smt_update smt (smt_get smt args.channel_id).id
              { smt_get smt args.channel_id with
                  version := args.version, balance2 := args.balance2 }),
          smt_update smt (smt_get smt args.channel_id).id
            { smt_get smt args.channel_id with
                version := args.version, balance2 := args.balance2 })) ∧
    (∀ (r : TransactionReceipt3) (smt' : SmtMap),
      update_channel ops smt args = (r, smt') →
      r.exit_code = ExecutionExitCode.Success →
      (smt_get smt args.channel_id).version
        < (smt_get smt' (smt_get smt args.channel_id).id).version) ∧
    (∀ (cargs : CloseChannel) (r : TransactionReceipt3) (smt' : SmtMap),
      close_channel ops smt cargs = (r, smt') →
      r.exit_code = ExecutionExitCode.Success →
      (smt_get smt cargs.channel_id).version
        < (smt_get smt' (smt_get smt cargs.channel_id).id).version) := by
  refine ⟨?_, ?_, ?_, ?_, ?_, ?_⟩
  · intro h1
    simp [update_channel, h1, TransactionReceipt3.err_res]
  · intro h1 h2
    simp [update_channel, h1, h2, TransactionReceipt3.err_res]
  · intro h1 h2 h3
    have h2' : ¬ (args.version ≤ (smt_get smt args.channel_id).version) :=
      Nat.not_le.mpr h2
    simp [update_channel, h1, h2', h3, TransactionReceipt3.err_res]
  · intro h1 h2 h3
    have h2' : ¬ (args.version ≤ (smt_get smt args.channel_id).version) :=
      Nat.not_le.mpr h2
    simp [update_channel, h1, h2', h3, TransactionReceipt3.success]
  · exact fun r smt' h hs => update_channel_success_version ops smt args r smt' h hs
  · exact fun cargs r smt' h hs => close_channel_success_version ops smt cargs r smt' h hs

/-- C3 witness: the S4 update (version 1 → 2) succeeds under the concrete
crypto primitives and strictly increases the stored version. -/
theorem update_channel_spec_witness :
    (update_channel ops0 smt2077 upd_args).1.exit_code = ExecutionExitCode.Success ∧
    (smt_get smt2077 upd_args.channel_id).version
      < (smt_get (update_channel ops0 smt2077 upd_args).2
          (smt_get smt2077 upd_args.channel_id).id).version :=
  ⟨by decide,
   (update_channel_spec ops0 smt2077 upd_args).2.2.2.2.1
     (update_channel ops0 smt2077 upd_args).1
     (update_channel ops0 smt2077 upd_args).2 rfl (by decide)⟩

/-- C2: when a request precondition fails inside a transaction, the executor
responds with that transaction's hash carrying the execution error and an
empty payload, clears the per-transaction cache entirely, and leaves the
block cache untouched, so the failing transaction contributes nothing to the
committed block state while prior successful transactions keep their
effects. -/
theorem failed_tx_rolls_back (parent : StateMap) (bc tc : BalCache) (lc : LogMap)
    (stx : SignedTransaction) (e : ExecuteError)
    (h : (exec_tx parent bc tc lc stx).1.error = some e) :
    (exec_tx parent bc tc lc stx).1.tx_hash = stx.tx_hash ∧
    (exec_tx parent bc tc lc stx).1.ret = "" ∧
    (exec_tx parent bc tc lc stx).2.1 = bc ∧
    (exec_tx parent bc tc lc stx).2.2.1 = [] := by
  rcases hr : exec_requests parent stx.tx_hash stx.raw.requests tc lc with ⟨oe, tc', lc'⟩
  cases oe with
  | none => rw [exec_tx, hr] at h; simp at h
  | some e' =>
      have h1 : (exec_requests parent stx.tx_hash stx.raw.requests tc lc).1 = some e' := by
        rw [hr]
      have h2 := exec_requests_error_clears parent stx.tx_hash stx.raw.requests tc lc e' h1
      rw [hr] at h2
      subst h2
      simp [exec_tx, hr]

/-- C2 witness: a `Lock 200` underflow against an empty parent state fails
with `ActiveAmountLessThanLock`, and the rollback conclusions hold at that
input (block cache preserved, tx cache cleared). -/
theorem failed_tx_rolls_back_witness :
    (exec_tx [] [(1, [(2, ⟨0, 5⟩)])] [] [] stx_lock200).1.error
        = some ⟨0, "ActiveAmountLessThanLock"⟩ ∧
    ((exec_tx [] [(1, [(2, ⟨0, 5⟩)])] [] [] stx_lock200).1.tx_hash = stx_lock200.tx_hash ∧
     (exec_tx [] [(1, [(2, ⟨0, 5⟩)])] [] [] stx_lock200).1.ret = "" ∧
     (exec_tx [] [(1, [(2, ⟨0, 5⟩)])] [] [] stx_lock200).2.1 = [(1, [(2, ⟨0, 5⟩)])] ∧
     (exec_tx [] [(1, [(2, ⟨0, 5⟩)])] [] [] stx_lock200).2.2.1 = []) :=
  ⟨by decide,
   failed_tx_rolls_back [] [(1, [(2, ⟨0, 5⟩)])] [] [] stx_lock200
     ⟨0, "ActiveAmountLessThanLock"⟩ (by decide)⟩

/-- C1 (amended): on the channel tier the committed block's header records
the executor's post-state root for the block's own transactions; on the token
tier the header records the pre-execution root, i.e. the root obtained by
executing the parent block's transactions on the parent's recorded state
root, and the result of executing the block's own transactions becomes the
next block's header root. -/
theorem committed_block_state_root (cfg : ConsensusCfg) (st : ConsensusState)
    (n₁ n₂ : Nat) (txs₁ txs₂ : List SignedTransaction) (ops : CryptoOps)
    (chops : ChainOps) (store : SmtMap) (tip : BlockHeader3)
    (ctxs : List SignedTx3) (now : Nat) :
    ((consensus_step cfg (consensus_step cfg st n₁ txs₁).2 n₂ txs₂).1.header.state_root
      = (Executor.exec (consensus_step cfg st n₁ txs₁).1.header.state_root
          (consensus_step cfg st n₁ txs₁).1.txs).state_root)
    ∧ ((produce_block ops chops store tip ctxs now).block.header.state_root
      = (ChannelExecutor.exec ops chops.cbmt_root_receipts store
          (ctxs.map SignedTx3.raw)).state_root) :=
  ⟨rfl, rfl⟩

/-- C1 counterexample: on the token tier, for a first block with one `Mint`
and an empty second block, the second block's header state root differs from
the executor's result on its parent's recorded root and its own transaction
list — the header records the pre-execution root, not
`exec(parent.state_root, block.txs).state_root`. -/
theorem committed_block_state_root_as_stated_false :
    ¬ ((consensus_step cfg0 (consensus_step cfg0 st0 0 [stx_mint100]).2 3 []).1.header.state_root
        = (Executor.exec (consensus_step cfg0 st0 0 [stx_mint100]).1.header.state_root
            (consensus_step cfg0 (consensus_step cfg0 st0 0 [stx_mint100]).2 3 []).1.txs).state_root) := by
  decide

/-- C10: during token-block execution, reads never consult `block_exec_cache`
(the responses, tx cache and log cache are invariant under an arbitrary
change of the block cache), and concretely, after `Mint 100` succeeds and
`Lock 200` fails in the same block, a later `Mint 1` re-seeds `(5, 7)` from
the (empty) parent state and its success overwrites the block cache's
`(5, 7)` entry with the stale value: the committed balance is 1, not 101. -/
theorem block_cache_never_read :
    (∀ (parent : StateMap) (txs : List SignedTransaction) (bc₁ bc₂ tc : BalCache)
        (lc : LogMap),
        (exec_txs parent txs bc₁ tc lc).1 = (exec_txs parent txs bc₂ tc lc).1 ∧
        (exec_txs parent txs bc₁ tc lc).2.2 = (exec_txs parent txs bc₂ tc lc).2.2)
    ∧ ((exec_txs [] [stx_mint100, stx_lock200, stx_mint1] [] [] []).1.map
          ExecuteResponse.error
        = [none, some ⟨0, "ActiveAmountLessThanLock"⟩, none]
      ∧ find_balance (exec_txs [] [stx_mint100] [] [] []).2.1 5 7 = some ⟨0, 100⟩
      ∧ find_balance (exec_txs [] [stx_mint100, stx_lock200, stx_mint1] [] [] []).2.1 5 7
          = some ⟨0, 1⟩
      ∧ state_get_balance
          (Executor.exec [] [stx_mint100, stx_lock200, stx_mint1]).state_root 5 7
          = ⟨0, 1⟩) :=
  ⟨fun parent txs bc₁ bc₂ tc lc => exec_txs_bc_oblivious parent txs bc₁ bc₂ tc lc,
   by decide, by decide, by decide, by decide⟩

/-- C4 (code bug): a `CloseChannel` on the S4 channel (open, version 1,
balances (50, 50)) with a strictly greater version and two accepted
signatures succeeds, sets `version = 2` and keeps `balance2 = (50, 50)`, but
leaves `state = Open`: the source never writes `Closed`, contradicting the
main-flow assertion `channel.state == ChannelState::Closed` after a close. -/
theorem close_channel_leaves_state_open :
    (close_channel ops0 [(2077, chan2077)] close_args).1.exit_code
        = ExecutionExitCode.Success
    ∧ (smt_get (close_channel ops0 [(2077, chan2077)] close_args).2 2077).version = 2
    ∧ (smt_get (close_channel ops0 [(2077, chan2077)] close_args).2 2077).balance2
        = (⟨50⟩, ⟨50⟩)
    ∧ (smt_get (close_channel ops0 [(2077, chan2077)] close_args).2 2077).state
        = ChannelState.Open
    ∧ ChannelState.Open ≠ ChannelState.Closed := by
  decide

/-- C5: per-action token semantics over the seeded balance `b`: `Mint`
unconditionally adds to `active` with an "active add" log; `Lock` requires
`active ≥ amount` and moves the amount to `locked` ("active to lock"),
failing `ActiveAmountLessThanLock`; `Unlock` requires `locked ≥ amount` and
moves it back ("lock to active"), failing `LockedAmountLessThanUnlock`;
`Divert` requires `active ≥ amount` and subtracts it ("active reduce"),
failing `ActiveAmountLessThanDivert`. -/
theorem token_action_semantics (parent : StateMap) (tc : BalCache) (lc : LogMap)
    (th a t amount : Nat) (b : TokenBalance)
    (hb : seeded_value parent tc a t = b) :
    ((exec_request parent th tc lc ⟨a, t, amount, .Mint, none⟩).1 = none ∧
     find_balance (exec_request parent th tc lc ⟨a, t, amount, .Mint, none⟩).2.1 a t
        = some ⟨b.locked, b.active + amount⟩ ∧
     afind (exec_request parent th tc lc ⟨a, t, amount, .Mint, none⟩).2.2 th
        = some ((afind lc th).getD []
            ++ [⟨toString a, gen_log .ActiveAdd amount⟩])) ∧
    (amount ≤ b.active →
     (exec_request parent th tc lc ⟨a, t, amount, .Lock, none⟩).1 = none ∧
     find_balance (exec_request parent th tc lc ⟨a, t, amount, .Lock, none⟩).2.1 a t
        = some ⟨b.locked + amount, b.active - amount⟩ ∧
     afind (exec_request parent th tc lc ⟨a, t, amount, .Lock, none⟩).2.2 th
        = some ((afind lc th).getD []
            ++ [⟨toString a, gen_log .ActiveToLock amount⟩])) ∧
    (b.active < amount →
     exec_request parent th tc lc ⟨a, t, amount, .Lock, none⟩
        = (some .ActiveAmountLessThanLock, [],
           ainsert lc th ((afind lc th).getD []))) ∧
    (amount ≤ b.locked →
     (exec_request parent th tc lc ⟨a, t, amount, .Unlock, none⟩).1 = none ∧
     find_balance (exec_request parent th tc lc ⟨a, t, amount, .Unlock, none⟩).2.1 a t
        = some ⟨b.locked - amount, b.active + amount⟩ ∧
     afind (exec_request parent th tc lc ⟨a, t, amount, .Unlock, none⟩).2.2 th
        = some ((afind lc th).getD []
            ++ [⟨toString a, gen_log .LockToActive amount⟩])) ∧
    (b.locked < amount →
     exec_request parent th tc lc ⟨a, t, amount, .Unlock, none⟩
        = (some .LockedAmountLessThanUnlock, [],
           ainsert lc th ((afind lc th).getD []))) ∧
    (amount ≤ b.active →
     (exec_request parent th tc lc ⟨a, t, amount, .Divert, none⟩).1 = none ∧
     find_balance (exec_request parent th tc lc ⟨a, t, amount, .Divert, none⟩).2.1 a t
        = some ⟨b.locked, b.active - amount⟩ ∧
     afind (exec_request parent th tc lc ⟨a, t, amount, .Divert, none⟩).2.2 th
        = some ((afind lc th).getD []
            ++ [⟨toString a, gen_log .ActiveReduce amount⟩])) ∧
    (b.active < amount →
     exec_request parent th tc lc ⟨a, t, amount, .Divert, none⟩
        = (some .ActiveAmountLessThanDivert, [],
           ainsert lc th ((afind lc th).getD []))) := by
  have hs : find_balance (seed_entry parent tc a t) a t = some b := by
    rw [find_seed_entry_self, hb]
  refine ⟨?_, ?_, ?_, ?_, ?_, ?_, ?_⟩
  · simp [exec_request, hs, find_insert_balance_self, afind_ainsert_self]
  · intro h
    simp [exec_request, hs, show ¬ (b.active < amount) from Nat.not_lt.mpr h,
      find_insert_balance_self, afind_ainsert_self]
  · intro h
    simp [exec_request, hs, h]
  · intro h
    simp [exec_request, hs, show ¬ (b.locked < amount) from Nat.not_lt.mpr h,
      find_insert_balance_self, afind_ainsert_self]
  · intro h
    simp [exec_request, hs, h]
  · intro h
    simp [exec_request, hs, show ¬ (b.active < amount) from Nat.not_lt.mpr h,
      find_insert_balance_self, afind_ainsert_self]
  · intro h
    simp [exec_request, hs, h]

/-- C5 witness: with an empty parent state the seeded balance of `(5, 7)` is
zero; `Mint 3` succeeds and a `Lock 3` underflow fails with
`ActiveAmountLessThanLock`. -/
theorem token_action_semantics_witness :
    seeded_value [] [] 5 7 = ⟨0, 0⟩ ∧
    (exec_request [] 100 [] [] ⟨5, 7, 3, .Mint, none⟩).1 = none ∧
    exec_request [] 100 [] [] ⟨5, 7, 3, .Lock, none⟩
      = (some .ActiveAmountLessThanLock, [], ainsert [] 100 ((afind [] 100).getD [])) :=
  ⟨by decide,
   (token_action_semantics [] [] [] 100 5 7 3 ⟨0, 0⟩ (by decide)).1.1,
   (token_action_semantics [] [] [] 100 5 7 3 ⟨0, 0⟩ (by decide)).2.2.1 (by decide)⟩

/-- C9 (amended): the `Transfer` action lazy-loads the recipient's balance
alongside the sender's and moves the amount from the sender's `active` to
the recipient's `active` when `sender.active ≥ amount`; when
`sender.active < amount` it fails, rolling the transaction back like the
other underflow failures, but the error it emits is
`ActiveAmountLessThanDivert` (the executor reuses the `Divert` underflow
error; no `ActiveAmountLessThanTransfer` variant exists in the source). -/
theorem transfer_semantics (parent : StateMap) (tc : BalCache) (lc : LogMap)
    (th a dest t amount : Nat) (sb : TokenBalance)
    (hsb : seeded_value parent tc a t = sb) :
    (sb.active < amount →
      exec_request parent th tc lc ⟨a, t, amount, .Transfer, some dest⟩
        = (some .ActiveAmountLessThanDivert, [],
           ainsert lc th ((afind lc th).getD []))) ∧
    (amount ≤ sb.active → a ≠ dest →
      (exec_request parent th tc lc ⟨a, t, amount, .Transfer, some dest⟩).1 = none ∧
      find_balance
          (exec_request parent th tc lc ⟨a, t, amount, .Transfer, some dest⟩).2.1 a t
        = some ⟨sb.locked, sb.active - amount⟩ ∧
      find_balance
          (exec_request parent th tc lc ⟨a, t, amount, .Transfer, some dest⟩).2.1 dest t
        = some ⟨(seeded_value parent (seed_entry parent tc a t) dest t).locked,
                (seeded_value parent (seed_entry parent tc a t) dest t).active
                  + amount⟩) := by
  have hrec : find_balance (seed_entry parent (seed_entry parent tc a t) dest t) a t
      = some sb := by
    by_cases hd : dest = a
    · subst hd
      rw [find_seed_entry_self, seeded_value_seed_same, hsb]
    · rw [show seed_entry parent (seed_entry parent tc a t) dest t
          = insert_balance (seed_entry parent tc a t) dest t
              (seeded_value parent (seed_entry parent tc a t) dest t) from rfl,
        find_balance_insert_other _ _ _ _ _ _ hd, find_seed_entry_self, hsb]
  constructor
  · intro h
    simp [exec_request, hrec, h]
  · intro h hd
    have hne : ¬ (sb.active < amount) := Nat.not_lt.mpr h
    refine ⟨?_, ?_, ?_⟩
    · simp [exec_request, hrec, hne]
    · simp only [exec_request, Option.getD_some, hrec, hne, if_false, ite_false]
      rw [find_balance_insert_other _ _ _ _ _ _ (fun hda => hd hda.symm),
        find_insert_balance_self]
    · simp only [exec_request, Option.getD_some, hrec, hne, if_false, ite_false]
      rw [find_insert_balance_self,
        show find_balance
            (insert_balance (seed_entry parent (seed_entry parent tc a t) dest t) a t
              ⟨sb.locked, sb.active - amount⟩) dest t
          = find_balance (seed_entry parent (seed_entry parent tc a t) dest t) dest t
          from find_balance_insert_other _ _ _ _ _ _ hd,
        find_seed_entry_self]
      rfl

/-- C9 counterexample: a `Transfer 100` underflow against an empty parent
state emits the error named `ActiveAmountLessThanDivert` (code 2), not an
error named `ActiveAmountLessThanTransfer`. -/
theorem transfer_underflow_error_name :
    (exec_tx [] [] [] [] stx_transfer100).1.error
        = some ⟨2, "ActiveAmountLessThanDivert"⟩ ∧
    (exec_tx [] [] [] [] stx_transfer100).1.error.map ExecuteError.error_message
        ≠ some "ActiveAmountLessThanTransfer" := by
  decide

/-- C9 witness: a funded transfer of 3 from address 5 to address 6 moves the
amount between the two `active` balances, and an unfunded transfer of 100
fails with `ActiveAmountLessThanDivert` and a cleared tx cache. -/
theorem transfer_semantics_witness :
    seeded_value [(5, [(7, ⟨0, 10⟩)])] [] 5 7 = ⟨0, 10⟩ ∧
    find_balance
        (exec_request [(5, [(7, ⟨0, 10⟩)])] 100 [] [] ⟨5, 7, 3, .Transfer, some 6⟩).2.1 5 7
      = some ⟨0, 7⟩ ∧
    find_balance
        (exec_request [(5, [(7, ⟨0, 10⟩)])] 100 [] [] ⟨5, 7, 3, .Transfer, some 6⟩).2.1 6 7
      = some ⟨(seeded_value [(5, [(7, ⟨0, 10⟩)])] (seed_entry [(5, [(7, ⟨0, 10⟩)])] [] 5 7) 6 7).locked,
              (seeded_value [(5, [(7, ⟨0, 10⟩)])] (seed_entry [(5, [(7, ⟨0, 10⟩)])] [] 5 7) 6 7).active + 3⟩ ∧
    exec_request [(5, [(7, ⟨0, 10⟩)])] 100 [] [] ⟨5, 7, 100, .Transfer, some 6⟩
      = (some .ActiveAmountLessThanDivert, [], ainsert [] 100 ((afind [] 100).getD [])) :=
  ⟨by decide,
   ((transfer_semantics [(5, [(7, ⟨0, 10⟩)])] [] [] 100 5 6 7 3 ⟨0, 10⟩ (by decide)).2
      (by decide) (by decide)).2.1,
   ((transfer_semantics [(5, [(7, ⟨0, 10⟩)])] [] [] 100 5 6 7 3 ⟨0, 10⟩ (by decide)).2
      (by decide) (by decide)).2.2,
   (transfer_semantics [(5, [(7, ⟨0, 10⟩)])] [] [] 100 5 6 7 100 ⟨0, 10⟩ (by decide)).1
      (by decide)⟩

theorem package_go_front (limit : Nat) :
    ∀ (l : List (Nat × SignedTransaction)) (s : Nat),
      ∃ rest, package_go limit l s ++ rest = l.map Prod.snd := by
  intro l
  induction l with
  | nil => intro s; exact ⟨[], rfl⟩
  | cons hd tl ih =>
      intro s
      rcases hd with ⟨k, stx⟩
      by_cases h : s + stx.cycle_limit ≤ limit
      · obtain ⟨rest, hr⟩ := ih (s + stx.cycle_limit)
        exact ⟨rest, by simp [package_go, h, hr]⟩
      · exact ⟨stx :: tl.map Prod.snd, by simp [package_go, h]⟩

theorem package_go_sum (limit : Nat) :
    ∀ (l : List (Nat × SignedTransaction)) (s : Nat),
      s + sum_cycles (package_go limit l s) ≤ limit ∨ package_go limit l s = [] := by
  intro l
  induction l with
  | nil => intro s; right; rfl
  | cons hd tl ih =>
      intro s
      rcases hd with ⟨k, stx⟩
      by_cases h : s + stx.cycle_limit ≤ limit
      · left
        rcases ih (s + stx.cycle_limit) with h2 | h2 <;>
          (simp [package_go, h, h2, sum_cycles] at h2 ⊢; try omega)
      · right; simp [package_go, h]

theorem package_go_halt (limit : Nat) :
    ∀ (l : List (Nat × SignedTransaction)) (s : Nat),
      (package_go limit l s).length < l.length →
      limit < s + sum_cycles (package_go limit l s)
        + ((l.map Prod.snd).getD (package_go limit l s).length default).cycle_limit := by
  intro l
  induction l with
  | nil => intro s h; simp [package_go] at h
  | cons hd tl ih =>
      intro s h
      rcases hd with ⟨k, stx⟩
      by_cases hc : s + stx.cycle_limit ≤ limit
      · have h' : (package_go limit tl (s + stx.cycle_limit)).length < tl.length := by
          simpa [package_go, hc] using h
        have := ih (s + stx.cycle_limit) h'
        simp only [package_go, hc, if_true, List.length_cons, List.map_cons,
          List.getD_cons_succ, sum_cycles, List.map_cons, List.sum_cons] at this ⊢
        omega
      · simp [package_go, hc, sum_cycles]
        omega

/-- C6: token mempool packaging is a greedy take-while over the map's
iteration order: the result is a prefix of the pool's transactions, its total
`cycles_limit` stays within the budget, and when iteration stops before the
end the very next entry would exceed the budget (no skip-ahead). -/
theorem package_spec (pool : MemPoolImpl) (limit : Nat) :
    (∃ rest, pool.package limit ++ rest = pool.tx_map.map Prod.snd) ∧
    sum_cycles (pool.package limit) ≤ limit ∧
    ((pool.package limit).length < pool.tx_map.length →
      limit < sum_cycles (pool.package limit)
        + ((pool.tx_map.map Prod.snd).getD (pool.package limit).length
            default).cycle_limit) := by
  refine ⟨package_go_front limit pool.tx_map 0, ?_, ?_⟩
  · rcases package_go_sum limit pool.tx_map 0 with h | h
    · simpa [MemPoolImpl.package] using h
    · simp [MemPoolImpl.package, h, sum_cycles]
  · intro h
    have h' : (package_go limit pool.tx_map 0).length < pool.tx_map.length := by
      simpa [MemPoolImpl.package] using h
    have := package_go_halt limit pool.tx_map 0 h'
    simpa [MemPoolImpl.package] using this

/-- C6 witness: with budget 30 and successive cycle limits 10, 25, 10 the
package is exactly the first transaction, the budget holds, and the next
entry (25) would exceed it. -/
theorem package_spec_witness :
    pool3.package 30 = [tx10a] ∧
    sum_cycles (pool3.package 30) ≤ 30 ∧
    ((pool3.package 30).length < pool3.tx_map.length ∧
     30 < sum_cycles (pool3.package 30)
        + ((pool3.tx_map.map Prod.snd).getD (pool3.package 30).length
            default).cycle_limit) :=
  ⟨by decide, (package_spec pool3 30).2.1,
   by decide, (package_spec pool3 30).2.2 (by decide)⟩

theorem verify_tx_reject_iff (ops : MempoolOps) (pool : MemPoolImpl)
    (stx : SignedTransaction) :
    verify_tx ops pool stx ≠ none ↔
      (stx.chain_id ≠ pool.chain_id ∨
       TX_CYCLE_LIMIT < stx.cycle_limit ∨
       ops.hash_raw stx.raw ≠ stx.tx_hash ∨
       (∃ req ∈ stx.raw.requests,
          req.action = TokenAction.Transfer ∧ req.to_addr = none) ∨
       ops.sig_verify stx.signature stx.tx_hash stx.pub_key = false) := by
  unfold verify_tx
  split_ifs with h1 h2 h3 h4 h5 <;>
    simp_all [List.any_eq_true, Bool.and_eq_true, beq_iff_eq,
      Option.isNone_iff_eq_none, not_lt]

/-- C7: token mempool admission rejects — leaving the pool unchanged —
exactly when the chain id differs, the per-transaction cycle cap (100000) is
exceeded, the hash of the raw transaction differs from `tx_hash`, some
request is a `Transfer` with an absent `to`, or the signature fails to
verify; otherwise the transaction is inserted keyed by `tx_hash`. -/
theorem mempool_admission_spec (ops : MempoolOps) (pool : MemPoolImpl)
    (stx : SignedTransaction) :
    ((MemPoolImpl.insert ops pool stx).1 ≠ none ↔
      (stx.chain_id ≠ pool.chain_id ∨
       TX_CYCLE_LIMIT < stx.cycle_limit ∨
       ops.hash_raw stx.raw ≠ stx.tx_hash ∨
       (∃ req ∈ stx.raw.requests,
          req.action = TokenAction.Transfer ∧ req.to_addr = none) ∨
       ops.sig_verify stx.signature stx.tx_hash stx.pub_key = false)) ∧
    ((MemPoolImpl.insert ops pool stx).1 ≠ none →
      (MemPoolImpl.insert ops pool stx).2 = pool) ∧
    ((MemPoolImpl.insert ops pool stx).1 = none →
      (MemPoolImpl.insert ops pool stx).2
        = { pool with tx_map := ainsert pool.tx_map stx.tx_hash stx }) := by
  refine ⟨?_, ?_, ?_⟩
  · rw [← verify_tx_reject_iff ops pool stx]
    rcases hv : verify_tx ops pool stx with _ | e <;>
      simp [MemPoolImpl.insert, hv]
  · intro h
    rcases hv : verify_tx ops pool stx with _ | e
    · simp [MemPoolImpl.insert, hv] at h
    · simp [MemPoolImpl.insert, hv]
  · intro h
    rcases hv : verify_tx ops pool stx with _ | e
    · simp [MemPoolImpl.insert, hv]
    · simp [MemPoolImpl.insert, hv] at h

/-- C7 witness: a transaction with the wrong chain id is rejected and the
pool is unchanged. -/
theorem mempool_admission_spec_witness :
    (MemPoolImpl.insert ops1 pool1 stx_badchain).1 ≠ none ∧
    (MemPoolImpl.insert ops1 pool1 stx_badchain).2 = pool1 :=
  ⟨by decide,
   (mempool_admission_spec ops1 pool1 stx_badchain).2.1 (by decide)⟩

theorem check_sig_iff (ops : CryptoOps) (msg : Nat) (p : List Nat × List Nat)
    (s : List Nat) :
    check_sig ops msg p s = true ↔
      ∃ rid pk, s.length = 65 ∧ extract_rec_id (s.getD 64 0) = some rid ∧
        ops.recover msg (s.take 64) rid = some pk ∧
        ((ops.keccak (pk.drop 1)).drop 12 = p.1 ∨
         (ops.keccak (pk.drop 1)).drop 12 = p.2) := by
  unfold check_sig recovered_addr
  by_cases hl : s.length = 65
  · simp only [hl, if_true]
    rcases hr : extract_rec_id (s.getD 64 0) with _ | rid
    · simp [hr]
    · rcases hk : ops.recover msg (s.take 64) rid with _ | pk
      · simp [hr, hk]
      · simp [hr, hk, beq_iff_eq]
  · simp [hl]

/-- C8: `verify_signature2` accepts exactly when each of the two 65-byte
signatures, after the 27/28 → 0/1 recovery-byte mapping, recovers a public
key whose Keccak-derived address (last 20 bytes of the digest of the key
without its tag byte) equals one of the two authorized addresses; signer
distinctness is not enforced — two signatures recovering to the same single
participant are accepted. -/
theorem verify_signature2_spec (ops : CryptoOps) (msg : Nat)
    (p : List Nat × List Nat) (s1 s2 : List Nat) :
    (verify_signature2 ops msg p (s1, s2) = true ↔
      ((∃ rid pk, s1.length = 65 ∧ extract_rec_id (s1.getD 64 0) = some rid ∧
          ops.recover msg (s1.take 64) rid = some pk ∧
          ((ops.keccak (pk.drop 1)).drop 12 = p.1 ∨
           (ops.keccak (pk.drop 1)).drop 12 = p.2)) ∧
       (∃ rid pk, s2.length = 65 ∧ extract_rec_id (s2.getD 64 0) = some rid ∧
          ops.recover msg (s2.take 64) rid = some pk ∧
          ((ops.keccak (pk.drop 1)).drop 12 = p.1 ∨
           (ops.keccak (pk.drop 1)).drop 12 = p.2)))) ∧
    (∀ a : List Nat, recovered_addr ops msg s1 = some a →
      recovered_addr ops msg s2 = some a → a = p.1 →
      verify_signature2 ops msg p (s1, s2) = true) := by
  constructor
  · rw [verify_signature2, Bool.and_eq_true, check_sig_iff, check_sig_iff]
  · intro a h1 h2 ha
    subst ha
    simp [verify_signature2, check_sig, h1, h2]

/-- C8 witness: under the concrete primitives both signature slots recover to
the single participant `addrA`, and the pair is accepted even though the two
signatures come from the same signer. -/
theorem verify_signature2_spec_witness :
    recovered_addr ops0 0 sig65 = some addrA ∧
    verify_signature2 ops0 0 (addrA, addrB) (sig65, sig65) = true :=
  ⟨by decide,
   (verify_signature2_spec ops0 0 (addrA, addrB) sig65 sig65).2 addrA
     (by decide) (by decide) rfl⟩

end Covalent
